import Mathlib

/-!
Shallow embedding of the borrowing transaction engine of the
neighborhood-library-platform backend.

Data model from `apps/core/models.py` (Member, Book, Borrowing, Fine and the
`is_overdue` / `days_overdue` derived fields), the transactional service layer
from `apps/core/services.py` (`BorrowingService.create_borrowing`,
`BorrowingService.return_borrowing`, `calculate_fine_amount`), and the legacy
non-transactional API paths from `apps/core/views.py`
(`BookViewSet.increase_copies`, `BorrowingViewSet.create`,
`BorrowingViewSet.return_book`).

Conventions of the embedding:
* database tables are lists of records; a SQL `UPDATE ... WHERE p` is a
  simultaneous guarded map over the list together with the affected-row count
  (`updateWhere`), which is exactly Django's `QuerySet.filter(...).update(...)`;
* primary keys are `Nat` (the UUIDs of the source only need to be comparable);
  new rows take the state's `nextId` counter;
* dates and datetimes are day numbers (`Int`); the one `timezone.now()` call
  of each operation is an explicit `now`/`today` parameter;
* money is integer cents (`Decimal('1.00')` per day becomes 100 cents);
* `transaction.atomic` is the run-function semantics: a raised exception
  (an `.error` result) rolls the whole transaction back, so the runner keeps
  the pre-state on error.
-/

namespace LibraryPlatform

/-- `Member.membership_status` choices from `models.py`. -/
inductive MembershipStatus where
  | active
  | suspended
  | inactive
deriving DecidableEq

/-- The fields of `Member` (models.py) that the borrowing engine reads. -/
structure Member where
  id : Nat
  membership_status : MembershipStatus
deriving DecidableEq

/-- The fields of `Book` (models.py) that the borrowing engine reads/writes. -/
structure Book where
  id : Nat
  total_copies : Int
  available_copies : Int
deriving DecidableEq

/-- The fields of `Borrowing` (models.py) that the engine reads/writes. -/
structure Borrowing where
  id : Nat
  memberId : Nat
  bookId : Nat
  due_date : Int
  returned_at : Option Int
  notes : Option String
deriving DecidableEq

/-- The fields of `Fine` (models.py) created by the return paths. -/
structure Fine where
  id : Nat
  borrowingId : Nat
  amountCents : Int
  reason : String
deriving DecidableEq

/-- The database state: one list per table, plus a fresh-id counter standing
for the UUID generator. -/
structure LibraryState where
  members : List Member
  books : List Book
  borrowings : List Borrowing
  fines : List Fine
  nextId : Nat
deriving DecidableEq

/-- SQL `UPDATE ... SET ... WHERE p` over a table: simultaneously rewrite the
rows satisfying `p` and report the affected-row count, exactly the semantics
of Django's `QuerySet.filter(...).update(...)`. -/
def updateWhere {α : Type} (p : α → Bool) (f : α → α) (l : List α) :
    List α × Nat :=
  (l.map fun a => if p a then f a else a, l.countP p)

/-- `Member.objects.get(id=memberId)` (ignoring the row lock, which the
sequential embedding makes implicit). -/
def findMember (s : LibraryState) (memberId : Nat) : Option Member :=
  s.members.find? fun m => m.id == memberId

/-- `Book.objects.get(id=bookId)`. -/
def findBook (s : LibraryState) (bookId : Nat) : Option Book :=
  s.books.find? fun b => b.id == bookId

/-- `Borrowing.objects.get(id=borrowingId)`. -/
def findBorrowing (s : LibraryState) (borrowingId : Nat) : Option Borrowing :=
  s.borrowings.find? fun br => br.id == borrowingId

/-- `BorrowingService.FINE_RATE_PER_DAY = Decimal('1.00')`, in cents. -/
def FINE_RATE_PER_DAY_CENTS : Int := 100

/-- The `$0.50` per day literal of the legacy `BorrowingViewSet.return_book`
(views.py line 375), in cents. -/
def LEGACY_FINE_RATE_PER_DAY_CENTS : Int := 50

/-- `BorrowingService.DEFAULT_BORROW_PERIOD_DAYS = 14`. -/
def DEFAULT_BORROW_PERIOD_DAYS : Int := 14

/-- The typed failures raised by the service layer (`exceptions.py`), plus
`validationFailed` for the serializer's generic `ValidationError` responses
and `persistenceFailure` for an unhandled database exception aborting the
transaction. -/
inductive BorrowError where
  | memberNotFound
  | memberNotActive
  | bookNotFound
  | bookNotAvailable
  | bookAlreadyBorrowed
  | concurrencyConflict
  | borrowingNotFound
  | borrowingAlreadyReturned
  | invalidQuantity
  | validationFailed
  | persistenceFailure
deriving DecidableEq

/-- services.py lines 108–111: `Book.objects.filter(id=book_id,
available_copies__gt=0).update(available_copies=F('available_copies') - 1)`,
returning the new table and the affected-row count. -/
def condDecrementAvailable (books : List Book) (bookId : Nat) :
    List Book × Nat :=
  updateWhere (fun b => b.id == bookId && decide (0 < b.available_copies))
    (fun b => { b with available_copies := b.available_copies - 1 }) books

/-- services.py lines 197–202: `Book.objects.filter(id=book.id,
available_copies__lt=F('total_copies')).update(available_copies=F('available_copies') + 1)`. -/
def condIncrementAvailable (books : List Book) (bookId : Nat) :
    List Book × Nat :=
  updateWhere
    (fun b => b.id == bookId && decide (b.available_copies < b.total_copies))
    (fun b => { b with available_copies := b.available_copies + 1 }) books

/-- The partial unique constraint `unique_active_borrowing_per_member_book`
(models.py): does an open borrowing for this (member, book) pair exist? -/
def hasOpenBorrowing (borrowings : List Borrowing) (memberId bookId : Nat) :
    Bool :=
  borrowings.any fun br =>
    br.memberId == memberId && br.bookId == bookId && br.returned_at.isNone

/-- The Borrowing row inserted by `Borrowing.objects.create` for a checkout:
fresh id, the given member/book, `returned_at` null, and the
`Borrowing.save` override defaulting `due_date` to `today + 14`. -/
def newBorrowing (s : LibraryState) (memberId bookId : Nat)
    (due_date : Option Int) (notes : Option String) (today : Int) :
    Borrowing :=
  { id := s.nextId, memberId := memberId, bookId := bookId,
    due_date := due_date.getD (today + DEFAULT_BORROW_PERIOD_DAYS),
    returned_at := none, notes := notes }

/-- The committed state of a successful checkout: decremented book table,
appended borrowing row, bumped id counter. -/
def checkedOutState (s : LibraryState) (memberId bookId : Nat)
    (due_date : Option Int) (notes : Option String) (today : Int) :
    LibraryState :=
  { s with books := (condDecrementAvailable s.books bookId).1,
           borrowings :=
             s.borrowings ++ [newBorrowing s memberId bookId due_date notes today],
           nextId := s.nextId + 1 }

/-- services.py lines 107–145, the write phase of `create_borrowing` after its
precondition reads: the conditional decrement (zero affected rows raises
`ConcurrencyException`), then the `Borrowing.objects.create` whose
`IntegrityError` on the unique-open-borrowing constraint becomes
`BookAlreadyBorrowedException`. -/
def checkoutCommit (s : LibraryState) (memberId bookId : Nat)
    (due_date : Option Int) (notes : Option String) (today : Int) :
    Except BorrowError (LibraryState × Borrowing) :=
  if (condDecrementAvailable s.books bookId).2 = 0 then
    .error .concurrencyConflict
  else if hasOpenBorrowing s.borrowings memberId bookId then
    .error .bookAlreadyBorrowed
  else
    .ok (checkedOutState s memberId bookId due_date notes today,
         newBorrowing s memberId bookId due_date notes today)

/-- `BorrowingService.create_borrowing` (services.py lines 44–145): the
precondition reads in source order — member exists, member active, book
exists, `available_copies > 0` — then the write phase `checkoutCommit`. -/
def create_borrowing (s : LibraryState) (memberId bookId : Nat)
    (due_date : Option Int) (notes : Option String) (today : Int) :
    Except BorrowError (LibraryState × Borrowing) :=
  match findMember s memberId with
  | none => .error .memberNotFound
  | some member =>
    if member.membership_status ≠ MembershipStatus.active then
      .error .memberNotActive
    else
      match findBook s bookId with
      | none => .error .bookNotFound
      | some book =>
        if book.available_copies ≤ 0 then
          .error .bookNotAvailable
        else
          checkoutCommit s memberId bookId due_date notes today

/-- The reason string of services.py line 224:
`f"Overdue by {days_overdue} day{'s' if days_overdue != 1 else ''}"`. -/
def overdueReason (d : Int) : String :=
  "Overdue by " ++ toString d ++ (" day" ++ (if d != 1 then "s" else ""))

/-- The state after the two row writes of `return_borrowing`: the borrowing's
`returned_at` set to `now` and the conditional increment applied to the book
table. -/
def returnedState (s : LibraryState) (borrowingId bookId : Nat) (now : Int) :
    LibraryState :=
  { s with
    borrowings := (updateWhere (fun br => br.id == borrowingId)
      (fun br => { br with returned_at := some now }) s.borrowings).1,
    books := (condIncrementAvailable s.books bookId).1 }

/-- The Fine row that `get_or_create` inserts for an overdue return of `d`
days. -/
def newReturnFine (s2 : LibraryState) (borrowingId : Nat) (d : Int) : Fine :=
  { id := s2.nextId, borrowingId := borrowingId,
    amountCents := d * FINE_RATE_PER_DAY_CENTS,
    reason := overdueReason d }

/-- `BorrowingService.return_borrowing` (services.py lines 147–245): find the
borrowing (else `BorrowingNotFoundException`), reject an already-returned one
(`BorrowingAlreadyReturnedException`), lock the book, take one `timezone.now()`
(`now`), compute `days_overdue = max(now - due_date, 0)`, store `returned_at
= now`, conditionally increment `available_copies` (guard `available <
total`; zero affected rows only logs a warning), and if overdue
`get_or_create` the Fine keyed by the borrowing with amount
`days_overdue * FINE_RATE_PER_DAY` and the `overdueReason` string. -/
def return_borrowing (s : LibraryState) (borrowingId : Nat) (now : Int) :
    Except BorrowError (LibraryState × Borrowing × Option Fine) :=
  match findBorrowing s borrowingId with
  | none => .error .borrowingNotFound
  | some borrowing =>
    if borrowing.returned_at.isSome then
      .error .borrowingAlreadyReturned
    else
      match findBook s borrowing.bookId with
      | none => .error .persistenceFailure
      | some _book =>
        let days_overdue : Int := max (now - borrowing.due_date) 0
        let s2 : LibraryState := returnedState s borrowingId borrowing.bookId now
        if 0 < days_overdue then
          match s2.fines.find? (fun f => f.borrowingId == borrowingId) with
          | some f =>
            .ok (s2, { borrowing with returned_at := some now }, some f)
          | none =>
            .ok ({ s2 with fines := s2.fines ++ [newReturnFine s2 borrowingId days_overdue],
                           nextId := s2.nextId + 1 },
                 { borrowing with returned_at := some now },
                 some (newReturnFine s2 borrowingId days_overdue))
        else
          .ok (s2, { borrowing with returned_at := some now }, none)

/-- `BorrowingService.calculate_fine_amount` (services.py lines 247–260). -/
def calculate_fine_amount (days_overdue : Int) : Int :=
  if days_overdue ≤ 0 then 0 else days_overdue * FINE_RATE_PER_DAY_CENTS

/-- `Borrowing.is_overdue` (models.py lines 229–234): `False` whenever
`returned_at` is set, else `today > due_date`. -/
def is_overdue (br : Borrowing) (today : Int) : Bool :=
  match br.returned_at with
  | some _ => false
  | none => decide (br.due_date < today)

/-- `Borrowing.days_overdue` (models.py lines 243–248): 0 unless
`is_overdue`, else `today - due_date`. -/
def days_overdue_field (br : Borrowing) (today : Int) : Int :=
  if is_overdue br today then today - br.due_date else 0

/-- `BookViewSet.increase_copies` (views.py lines 225–251), the restock
action: 404 when the book is missing, 400 on a non-positive quantity, else
`total_copies += quantity; available_copies += quantity; book.save()`. -/
def increase_copies (s : LibraryState) (bookId : Nat) (quantity : Int) :
    Except BorrowError LibraryState :=
  match findBook s bookId with
  | none => .error .bookNotFound
  | some _book =>
    if quantity ≤ 0 then
      .error .invalidQuantity
    else
      .ok { s with
        books := (updateWhere (fun b => b.id == bookId)
          (fun b => { b with total_copies := b.total_copies + quantity,
                             available_copies := b.available_copies + quantity })
          s.books).1 }

/-- `BorrowingViewSet.create` (views.py lines 316–350) together with
`BorrowingDetailSerializer.validate` (serializers.py lines 160–199): every
serializer rejection is a generic 400 (`validationFailed`); on success the
view does the unconditional read-modify-write `book.available_copies -= 1;
book.save()` and then creates the borrowing. -/
def legacy_create_borrowing (s : LibraryState) (memberId bookId : Nat)
    (due_date : Option Int) (notes : Option String) (today : Int) :
    Except BorrowError (LibraryState × Borrowing) :=
  match findMember s memberId with
  | none => .error .validationFailed
  | some member =>
    if member.membership_status ≠ MembershipStatus.active then
      .error .validationFailed
    else
      match findBook s bookId with
      | none => .error .validationFailed
      | some book =>
        if book.available_copies ≤ 0 then
          .error .validationFailed
        else if hasOpenBorrowing s.borrowings memberId bookId then
          .error .validationFailed
        else
          let br : Borrowing :=
            { id := s.nextId, memberId := memberId, bookId := bookId,
              due_date := due_date.getD (today + DEFAULT_BORROW_PERIOD_DAYS),
              returned_at := none, notes := notes }
          .ok ({ s with
                 books := (updateWhere (fun b => b.id == bookId)
                   (fun b => { b with
                     available_copies := b.available_copies - 1 }) s.books).1,
                 borrowings := s.borrowings ++ [br],
                 nextId := s.nextId + 1 }, br)

/-- `BorrowingViewSet.return_book` (views.py lines 352–391), the legacy
non-transactional return: 404 when the borrowing is missing, 400 when already
returned; else set `returned_at = now` and save, do the unconditional
read-modify-write `book.available_copies += 1; book.save()`, and only then
test `borrowing.is_overdue` (at `today`) to decide whether to create a
`$0.50`-per-day Fine. -/
def legacy_return_book (s : LibraryState) (borrowingId : Nat)
    (now today : Int) : Except BorrowError (LibraryState × Borrowing) :=
  match findBorrowing s borrowingId with
  | none => .error .borrowingNotFound
  | some borrowing =>
    if borrowing.returned_at.isSome then
      .error .borrowingAlreadyReturned
    else
      let borrowing' : Borrowing := { borrowing with returned_at := some now }
      let s1 : LibraryState :=
        { s with
          borrowings := (updateWhere (fun br => br.id == borrowingId)
            (fun br => { br with returned_at := some now }) s.borrowings).1,
          books := (updateWhere (fun b => b.id == borrowing.bookId)
            (fun b => { b with available_copies := b.available_copies + 1 })
            s.books).1 }
      if is_overdue borrowing' today then
        let d : Int := days_overdue_field borrowing' today
        let fine : Fine :=
          { id := s1.nextId, borrowingId := borrowingId,
            amountCents := d * LEGACY_FINE_RATE_PER_DAY_CENTS,
            reason := "Overdue by " ++ toString d ++ " days" }
        .ok ({ s1 with fines := s1.fines ++ [fine], nextId := s1.nextId + 1 },
             borrowing')
      else
        .ok (s1, borrowing')

/-- `transaction.atomic` semantics for `create_borrowing`: an exception rolls
back every write, so an `.error` outcome keeps the pre-state. -/
def runCreateBorrowing (s : LibraryState) (memberId bookId : Nat)
    (due_date : Option Int) (notes : Option String) (today : Int) :
    LibraryState × Except BorrowError Borrowing :=
  match create_borrowing s memberId bookId due_date notes today with
  | .ok (s', br) => (s', .ok br)
  | .error e => (s, .error e)

/-- `transaction.atomic` semantics for `return_borrowing`. -/
def runReturnBorrowing (s : LibraryState) (borrowingId : Nat) (now : Int) :
    LibraryState × Except BorrowError (Borrowing × Option Fine) :=
  match return_borrowing s borrowingId now with
  | .ok (s', br, f) => (s', .ok (br, f))
  | .error e => (s, .error e)

/-- Runner for the restock action: an error response writes nothing. -/
def runIncreaseCopies (s : LibraryState) (bookId : Nat) (quantity : Int) :
    LibraryState :=
  match increase_copies s bookId quantity with
  | .ok s' => s'
  | .error _ => s

/-- Runner for the legacy viewset create: an error response writes nothing
(every serializer rejection happens before any write). -/
def runLegacyCreateBorrowing (s : LibraryState) (memberId bookId : Nat)
    (due_date : Option Int) (notes : Option String) (today : Int) :
    LibraryState × Except BorrowError Borrowing :=
  match legacy_create_borrowing s memberId bookId due_date notes today with
  | .ok (s', br) => (s', .ok br)
  | .error e => (s, .error e)

/-- Runner for the legacy viewset return: an error response writes nothing
(both rejections happen before any write). -/
def runLegacyReturnBook (s : LibraryState) (borrowingId : Nat)
    (now today : Int) : LibraryState × Except BorrowError Borrowing :=
  match legacy_return_book s borrowingId now today with
  | .ok (s', br) => (s', .ok br)
  | .error e => (s, .error e)

/-- One API-level operation of the spec's random-sequence invariant property:
checkout, return, or the staff restock action. -/
inductive Op where
  | checkOut (memberId bookId : Nat) (due_date : Option Int)
      (notes : Option String) (today : Int)
  | ret (borrowingId : Nat) (now : Int)
  | restock (bookId : Nat) (quantity : Int)

/-- Run one operation against the store, with rollback-on-error semantics. -/
def applyOp (s : LibraryState) (op : Op) : LibraryState :=
  match op with
  | .checkOut m k due notes today =>
    (runCreateBorrowing s m k due notes today).1
  | .ret bId now => (runReturnBorrowing s bId now).1
  | .restock k q => runIncreaseCopies s k q

/-- The Book invariant backed by the check constraints
`book_available_copies_non_negative` and `book_available_lte_total`
(models.py): `0 ≤ available_copies ≤ total_copies`. -/
def bookInv (b : Book) : Prop :=
  0 ≤ b.available_copies ∧ b.available_copies ≤ b.total_copies

instance (b : Book) : Decidable (bookInv b) := by
  unfold bookInv; exact inferInstance

/-- N checkout attempts against one book, serialized by the row lock on the
Book (`select_for_update`): each attempt runs to completion before the next
starts.  `reqs` lists the member id of each attempt. -/
def runCheckouts (s : LibraryState) (k : Nat) (reqs : List Nat)
    (today : Int) : LibraryState × List (Except BorrowError Borrowing) :=
  match reqs with
  | [] => (s, [])
  | m :: rest =>
    let first := runCreateBorrowing s m k none none today
    let next := runCheckouts first.1 k rest today
    (next.1, first.2 :: next.2)

/-- Did a checkout attempt succeed? -/
def isOkResult : Except BorrowError Borrowing → Bool
  | .ok _ => true
  | .error _ => false

/-- Number of open borrowings of a book. -/
def countOpenForBook (s : LibraryState) (k : Nat) : Nat :=
  s.borrowings.countP fun br => br.bookId == k && br.returned_at.isNone

/-- The id counter has never been used by an existing borrowing row (true of
every state the store itself builds; the counter stands for the UUID
generator, which never collides). -/
def borrowIdsFresh (s : LibraryState) : Prop :=
  ∀ br ∈ s.borrowings, br.id < s.nextId

instance (s : LibraryState) : Decidable (borrowIdsFresh s) := by
  unfold borrowIdsFresh; exact inferInstance

/-! Concrete sample states used to instantiate the theorems below. -/

/-- Two active members and one book with 1 of 3 copies available. -/
def stBase : LibraryState :=
  { members := [{ id := 1, membership_status := .active },
                { id := 2, membership_status := .active }],
    books := [{ id := 10, total_copies := 3, available_copies := 1 }],
    borrowings := [], fines := [], nextId := 100 }

/-- One active member holding an open borrowing (id 50, due day 20) of the
book; 1 of 3 copies available; no fines. -/
def stDup : LibraryState :=
  { members := [{ id := 1, membership_status := .active }],
    books := [{ id := 10, total_copies := 3, available_copies := 1 }],
    borrowings := [{ id := 50, memberId := 1, bookId := 10, due_date := 20,
                     returned_at := none, notes := none }],
    fines := [], nextId := 100 }

/-- One active member and a book with no available copies. -/
def stEmptyBook : LibraryState :=
  { members := [{ id := 1, membership_status := .active }],
    books := [{ id := 10, total_copies := 3, available_copies := 0 }],
    borrowings := [], fines := [], nextId := 100 }

/-! Helper lemmas about the table primitives. -/

section Helpers

variable {α : Type}

lemma updateWhere_fst (p : α → Bool) (f : α → α) (l : List α) :
    (updateWhere p f l).1 = l.map fun a => if p a then f a else a := rfl

lemma updateWhere_snd (p : α → Bool) (f : α → α) (l : List α) :
    (updateWhere p f l).2 = l.countP p := rfl

/-- An `UPDATE` whose `WHERE` clause matches no row changes nothing and
reports zero affected rows. -/
lemma updateWhere_nop (p : α → Bool) (f : α → α) (l : List α)
    (h : ∀ a ∈ l, p a = false) : updateWhere p f l = (l, 0) := by
  unfold updateWhere
  have h1 : (l.map fun a => if p a then f a else a) = l.map id :=
    List.map_congr_left fun a ha => by simp [h a ha]
  have h2 : l.countP p = 0 := List.countP_eq_zero.mpr fun a ha => by
    simp [h a ha]
  simp [h1, h2]

/-- Looking up a key after a guarded keyed `UPDATE`: the found row is the old
row, transformed when the guard held for it. -/
lemma find?_updateWhere_guard (key : α → Nat) (k : Nat) (g : α → Bool)
    (f : α → α) (hf : ∀ a, key (f a) = key a) (l : List α) :
    ((updateWhere (fun a => key a == k && g a) f l).1.find?
        fun a => key a == k)
      = (l.find? fun a => key a == k).map fun a => if g a then f a else a := by
  induction l with
  | nil => rfl
  | cons a l ih =>
    simp only [updateWhere_fst, List.map_cons] at *
    by_cases hk : (key a == k) = true
    · rw [List.find?_cons_of_pos (p := fun x => key x == k) _ hk]
      have hkey : (key (if key a == k && g a then f a else a) == k) = true := by
        by_cases hg : g a = true
        · simp [hk, hg, hf]
        · simp [hk, hg]
      rw [List.find?_cons_of_pos (p := fun x => key x == k) _ hkey]
      by_cases hg : g a = true
      · simp [hk, hg]
      · simp [hk, hg]
    · rw [List.find?_cons_of_neg (p := fun x => key x == k) _ hk]
      have hkey : ¬ (key (if key a == k && g a then f a else a) == k) = true := by
        simp [hk]
      rw [List.find?_cons_of_neg (p := fun x => key x == k) _ hkey]
      exact ih

/-- Looking up a key after an unguarded keyed `UPDATE`. -/
lemma find?_updateWhere_key (key : α → Nat) (k : Nat) (f : α → α)
    (hf : ∀ a, key (f a) = key a) (l : List α) :
    ((updateWhere (fun a => key a == k) f l).1.find? fun a => key a == k)
      = (l.find? fun a => key a == k).map f := by
  induction l with
  | nil => rfl
  | cons a l ih =>
    simp only [updateWhere_fst, List.map_cons] at *
    by_cases hk : (key a == k) = true
    · rw [List.find?_cons_of_pos (p := fun x => key x == k) _ hk]
      have hkey : (key (if key a == k then f a else a) == k) = true := by
        simp [hk, hf]
      rw [List.find?_cons_of_pos (p := fun x => key x == k) _ hkey]
      simp [hk]
    · rw [List.find?_cons_of_neg (p := fun x => key x == k) _ hk]
      have hkey : ¬ (key (if key a == k then f a else a) == k) = true := by
        simp [hk]
      rw [List.find?_cons_of_neg (p := fun x => key x == k) _ hkey]
      exact ih

/-- A keyed `UPDATE` leaves rows with other keys untouched, so a lookup for a
different key is unchanged. -/
lemma find?_updateWhere_other (key : α → Nat) (k k' : Nat) (p : α → Bool)
    (f : α → α) (hf : ∀ a, key (f a) = key a) (hkk : k ≠ k') (l : List α) :
    ((updateWhere (fun a => key a == k && p a) f l).1.find?
        fun a => key a == k')
      = l.find? fun a => key a == k' := by
  induction l with
  | nil => rfl
  | cons a l ih =>
    simp only [updateWhere_fst, List.map_cons] at *
    by_cases hk : (key a == k') = true
    · have hne : ¬ (key a == k) = true := by
        simp only [beq_iff_eq] at hk ⊢
        omega
      have ha : (if key a == k && p a then f a else a) = a := by simp [hne]
      rw [ha, List.find?_cons_of_pos (p := fun x => key x == k') _ hk,
        List.find?_cons_of_pos (p := fun x => key x == k') _ hk]
    · have hkey : ¬ (key (if key a == k && p a then f a else a) == k') = true := by
        by_cases hg : (key a == k && p a) = true
        · simp [hg, hf, hk]
        · simp [hg, hk]
      rw [List.find?_cons_of_neg (p := fun x => key x == k') _ hkey,
        List.find?_cons_of_neg (p := fun x => key x == k') _ hk]
      exact ih

end Helpers

/-! Helper lemmas about the engine operations. -/

section OpHelpers

/-- If the book is present with a positive available count, the conditional
decrement affects at least one row. -/
lemma condDecrementAvailable_snd_ne_zero (books : List Book) (k : Nat)
    (book : Book) (hb : books.find? (fun b => b.id == k) = some book)
    (hav : 0 < book.available_copies) :
    (condDecrementAvailable books k).2 ≠ 0 := by
  have hmem := List.mem_of_find?_eq_some hb
  have hp := List.find?_some hb
  have hpos : 0 < books.countP
      (fun b => b.id == k && decide (0 < b.available_copies)) :=
    List.countP_pos_iff.mpr ⟨book, hmem, by simp [hp, hav]⟩
  simp only [condDecrementAvailable, updateWhere_snd]
  omega

/-- Success shape of `create_borrowing`: when all four precondition reads pass
and no open borrowing for the pair exists, the call commits
`checkedOutState` and returns the fresh borrowing row. -/
lemma create_borrowing_ok (s : LibraryState) (m k : Nat) (due : Option Int)
    (notes : Option String) (today : Int) (member : Member) (book : Book)
    (hm : findMember s m = some member)
    (ha : member.membership_status = MembershipStatus.active)
    (hb : findBook s k = some book)
    (hav : 0 < book.available_copies)
    (hdup : hasOpenBorrowing s.borrowings m k = false) :
    create_borrowing s m k due notes today =
      .ok (checkedOutState s m k due notes today,
           newBorrowing s m k due notes today) := by
  have hcnt := condDecrementAvailable_snd_ne_zero s.books k book hb hav
  unfold create_borrowing checkoutCommit
  rw [hm]
  simp only [ha, ne_eq, not_true_eq_false, if_false, ite_false]
  rw [hb]
  simp [hdup, hcnt, not_le.mpr hav]

/-- `create_borrowing` fails with `BookNotAvailableException` when the locked
read sees no available copy; the member checks passed first. -/
lemma create_borrowing_notAvailable (s : LibraryState) (m k : Nat)
    (due : Option Int) (notes : Option String) (today : Int)
    (member : Member) (book : Book)
    (hm : findMember s m = some member)
    (ha : member.membership_status = MembershipStatus.active)
    (hb : findBook s k = some book)
    (hav : book.available_copies ≤ 0) :
    create_borrowing s m k due notes today = .error .bookNotAvailable := by
  unfold create_borrowing
  rw [hm]
  simp only [ha, ne_eq, not_true_eq_false, if_false, ite_false]
  rw [hb]
  simp [hav]

/-- `create_borrowing` fails with `BookAlreadyBorrowedException` when the
insert hits the unique-open-borrowing constraint. -/
lemma create_borrowing_alreadyBorrowed (s : LibraryState) (m k : Nat)
    (due : Option Int) (notes : Option String) (today : Int)
    (member : Member) (book : Book)
    (hm : findMember s m = some member)
    (ha : member.membership_status = MembershipStatus.active)
    (hb : findBook s k = some book)
    (hav : 0 < book.available_copies)
    (hdup : hasOpenBorrowing s.borrowings m k = true) :
    create_borrowing s m k due notes today = .error .bookAlreadyBorrowed := by
  have hcnt := condDecrementAvailable_snd_ne_zero s.books k book hb hav
  unfold create_borrowing checkoutCommit
  rw [hm]
  simp only [ha, ne_eq, not_true_eq_false, if_false, ite_false]
  rw [hb]
  simp [hdup, hcnt, not_le.mpr hav]

/-- `return_borrowing` on an already-returned borrowing raises
`BorrowingAlreadyReturnedException`. -/
lemma return_borrowing_already (s : LibraryState) (bId : Nat) (now : Int)
    (borrowing : Borrowing)
    (hbr : findBorrowing s bId = some borrowing)
    (hret : borrowing.returned_at.isSome = true) :
    return_borrowing s bId now = .error .borrowingAlreadyReturned := by
  unfold return_borrowing
  rw [hbr]
  simp [hret]

/-- Success shape of `return_borrowing` when the return is not overdue:
`returnedState` commits and no fine is produced. -/
lemma return_borrowing_ok_notOverdue (s : LibraryState) (bId : Nat)
    (now : Int) (borrowing : Borrowing) (book : Book)
    (hbr : findBorrowing s bId = some borrowing)
    (hopen : borrowing.returned_at = none)
    (hbk : findBook s borrowing.bookId = some book)
    (hnot : now - borrowing.due_date ≤ 0) :
    return_borrowing s bId now =
      .ok (returnedState s bId borrowing.bookId now,
           { borrowing with returned_at := some now }, none) := by
  unfold return_borrowing
  rw [hbr]
  simp only [hopen, Option.isSome_none, if_false, Bool.false_eq_true,
    ite_false]
  rw [hbk]
  simp [max_eq_right hnot]

/-- Success shape of `return_borrowing` for an overdue return when no Fine
for the borrowing exists yet: exactly one Fine of `days × FINE_RATE_PER_DAY`
with the `overdueReason` string is appended. -/
lemma return_borrowing_ok_overdue_new (s : LibraryState) (bId : Nat)
    (now : Int) (borrowing : Borrowing) (book : Book)
    (hbr : findBorrowing s bId = some borrowing)
    (hopen : borrowing.returned_at = none)
    (hbk : findBook s borrowing.bookId = some book)
    (hover : 0 < now - borrowing.due_date)
    (hnof : s.fines.find? (fun f => f.borrowingId == bId) = none) :
    return_borrowing s bId now =
      .ok ({ returnedState s bId borrowing.bookId now with
              fines := s.fines ++
                [newReturnFine s bId (now - borrowing.due_date)],
              nextId := s.nextId + 1 },
           { borrowing with returned_at := some now },
           some (newReturnFine s bId (now - borrowing.due_date))) := by
  unfold return_borrowing
  rw [hbr]
  simp only [hopen, Option.isSome_none, if_false, Bool.false_eq_true,
    ite_false]
  rw [hbk]
  have hmax : max (now - borrowing.due_date) 0 = now - borrowing.due_date :=
    max_eq_left (le_of_lt hover)
  have hfines : (returnedState s bId borrowing.bookId now).fines = s.fines :=
    rfl
  have hnext : (returnedState s bId borrowing.bookId now).nextId = s.nextId :=
    rfl
  simp only [hmax, hfines, hnext, hnof, hover, if_true, ite_true]
  rfl

/-- Success shape of `return_borrowing` for an overdue return when a Fine for
the borrowing already exists: the existing Fine is returned and the fines
table is unchanged. -/
lemma return_borrowing_ok_overdue_existing (s : LibraryState) (bId : Nat)
    (now : Int) (borrowing : Borrowing) (book : Book) (f : Fine)
    (hbr : findBorrowing s bId = some borrowing)
    (hopen : borrowing.returned_at = none)
    (hbk : findBook s borrowing.bookId = some book)
    (hover : 0 < now - borrowing.due_date)
    (hf : s.fines.find? (fun fi => fi.borrowingId == bId) = some f) :
    return_borrowing s bId now =
      .ok (returnedState s bId borrowing.bookId now,
           { borrowing with returned_at := some now }, some f) := by
  unfold return_borrowing
  rw [hbr]
  simp only [hopen, Option.isSome_none, if_false, Bool.false_eq_true,
    ite_false]
  rw [hbk]
  have hmax : max (now - borrowing.due_date) 0 = now - borrowing.due_date :=
    max_eq_left (le_of_lt hover)
  have hfines : (returnedState s bId borrowing.bookId now).fines = s.fines :=
    rfl
  simp only [hmax, hfines, hf, hover, if_true, ite_true]

/-- Inversion for a successful `create_borrowing`: the committed state and
returned row are exactly `checkedOutState` / `newBorrowing`. -/
lemma create_borrowing_ok_inv (s : LibraryState) (m k : Nat)
    (due : Option Int) (notes : Option String) (today : Int)
    (s' : LibraryState) (br : Borrowing)
    (h : create_borrowing s m k due notes today = .ok (s', br)) :
    s' = checkedOutState s m k due notes today ∧
    br = newBorrowing s m k due notes today := by
  unfold create_borrowing checkoutCommit at h
  repeat' split at h
  all_goals simp_all

/-- Inversion for a successful `return_borrowing`, book-table component: the
books were updated by exactly the conditional increment on the borrowing's
book. -/
lemma return_borrowing_ok_books (s : LibraryState) (bId : Nat) (now : Int)
    (s' : LibraryState) (br : Borrowing) (fineOpt : Option Fine)
    (h : return_borrowing s bId now = .ok (s', br, fineOpt)) :
    ∃ k, s'.books = (condIncrementAvailable s.books k).1 := by
  unfold return_borrowing at h
  split at h
  · exact Except.noConfusion h
  next borrowing heq =>
    split at h
    · exact Except.noConfusion h
    · split at h
      · exact Except.noConfusion h
      next book heq2 =>
        simp only [] at h
        split at h
        · split at h
          all_goals
            simp only [Except.ok.injEq, Prod.mk.injEq] at h
            refine ⟨borrowing.bookId, ?_⟩
            rw [← h.1]
            rfl
        · simp only [Except.ok.injEq, Prod.mk.injEq] at h
          refine ⟨borrowing.bookId, ?_⟩
          rw [← h.1]
          rfl

/-- Inversion for a successful `increase_copies`: the quantity was positive
and both copy counts were raised by it. -/
lemma increase_copies_ok_inv (s : LibraryState) (k : Nat) (q : Int)
    (s' : LibraryState) (h : increase_copies s k q = .ok s') :
    0 < q ∧
    s'.books = (updateWhere (fun b => b.id == k)
      (fun b => { b with total_copies := b.total_copies + q,
                         available_copies := b.available_copies + q })
      s.books).1 := by
  unfold increase_copies at h
  split at h
  · exact Except.noConfusion h
  · split at h
    · exact Except.noConfusion h
    next hq =>
      simp only [Except.ok.injEq] at h
      exact ⟨by omega, by rw [← h]⟩

/-- The guarded conditional decrement preserves the Book invariant for every
row: the guard `available_copies > 0` keeps the count non-negative. -/
lemma bookInv_condDecrement (books : List Book) (k : Nat)
    (h : ∀ b ∈ books, bookInv b) :
    ∀ b ∈ (condDecrementAvailable books k).1, bookInv b := by
  intro b hb
  simp only [condDecrementAvailable, updateWhere_fst, List.mem_map] at hb
  obtain ⟨a, ha, rfl⟩ := hb
  have hia := h a ha
  unfold bookInv at hia ⊢
  split
  next hg =>
    simp only [Bool.and_eq_true, decide_eq_true_eq] at hg
    constructor <;> simp <;> omega
  next => exact hia

/-- The guarded conditional increment preserves the Book invariant for every
row: the guard `available_copies < total_copies` keeps the count bounded. -/
lemma bookInv_condIncrement (books : List Book) (k : Nat)
    (h : ∀ b ∈ books, bookInv b) :
    ∀ b ∈ (condIncrementAvailable books k).1, bookInv b := by
  intro b hb
  simp only [condIncrementAvailable, updateWhere_fst, List.mem_map] at hb
  obtain ⟨a, ha, rfl⟩ := hb
  have hia := h a ha
  unfold bookInv at hia ⊢
  split
  next hg =>
    simp only [Bool.and_eq_true, decide_eq_true_eq] at hg
    constructor <;> simp <;> omega
  next => exact hia

/-- Restocking by a positive quantity raises both counts equally, preserving
the Book invariant for every row. -/
lemma bookInv_restock (books : List Book) (k : Nat) (q : Int) (hq : 0 < q)
    (h : ∀ b ∈ books, bookInv b) :
    ∀ b ∈ (updateWhere (fun b => b.id == k)
        (fun b => { b with total_copies := b.total_copies + q,
                           available_copies := b.available_copies + q })
        books).1, bookInv b := by
  intro b hb
  simp only [updateWhere_fst, List.mem_map] at hb
  obtain ⟨a, ha, rfl⟩ := hb
  have hia := h a ha
  unfold bookInv at hia ⊢
  split
  next => constructor <;> simp <;> omega
  next => exact hia

/-- One step of any of the three operations preserves the Book invariant on
every row of the store. -/
lemma applyOp_bookInv (s : LibraryState) (op : Op)
    (h : ∀ b ∈ s.books, bookInv b) :
    ∀ b ∈ (applyOp s op).books, bookInv b := by
  cases op with
  | checkOut m k due notes today =>
    unfold applyOp runCreateBorrowing
    cases hc : create_borrowing s m k due notes today with
    | error e => simp only [hc]; simpa using h
    | ok p =>
      obtain ⟨hs, -⟩ := create_borrowing_ok_inv s m k due notes today p.1 p.2
        (by rw [hc])
      simp only [hc, hs]
      exact bookInv_condDecrement s.books k h
  | ret bId now =>
    unfold applyOp runReturnBorrowing
    cases hc : return_borrowing s bId now with
    | error e => simp only [hc]; simpa using h
    | ok p =>
      obtain ⟨k, hbooks⟩ := return_borrowing_ok_books s bId now p.1 p.2.1 p.2.2
        (by rw [hc])
      simp only [hc, hbooks]
      exact bookInv_condIncrement s.books k h
  | restock k q =>
    unfold applyOp runIncreaseCopies
    cases hc : increase_copies s k q with
    | error e => simp only [hc]; simpa using h
    | ok s' =>
      obtain ⟨hq, hbooks⟩ := increase_copies_ok_inv s k q s' hc
      simp only [hc, hbooks]
      exact bookInv_restock s.books k q hq h

/-- Inversion for a successful `checkoutCommit`. -/
lemma checkoutCommit_ok_inv (s : LibraryState) (m k : Nat) (due : Option Int)
    (notes : Option String) (today : Int) (s' : LibraryState) (br : Borrowing)
    (h : checkoutCommit s m k due notes today = .ok (s', br)) :
    s' = checkedOutState s m k due notes today ∧
    br = newBorrowing s m k due notes today := by
  unfold checkoutCommit at h
  repeat' split at h
  all_goals simp_all

/-- A successful `create_borrowing` implies its precondition reads passed:
the book was present with a positive available count and no open borrowing
for the pair existed. -/
lemma create_borrowing_ok_pre (s : LibraryState) (m k : Nat)
    (due : Option Int) (notes : Option String) (today : Int)
    (s' : LibraryState) (br : Borrowing)
    (h : create_borrowing s m k due notes today = .ok (s', br)) :
    ∃ book, findBook s k = some book ∧ 0 < book.available_copies ∧
      hasOpenBorrowing s.borrowings m k = false := by
  unfold create_borrowing at h
  split at h
  · exact Except.noConfusion h
  · split at h
    · exact Except.noConfusion h
    · split at h
      · exact Except.noConfusion h
      next book heq =>
        split at h
        · exact Except.noConfusion h
        next hav =>
          unfold checkoutCommit at h
          split at h
          · exact Except.noConfusion h
          · split at h
            · exact Except.noConfusion h
            next hdup =>
              exact ⟨book, heq, by omega, by simpa using hdup⟩

/-- Success shape of `return_borrowing`, fines aside: the borrowing row gets
`returned_at := now` and the book table gets the conditional increment. -/
lemma return_borrowing_ok_core (s : LibraryState) (bId : Nat) (now : Int)
    (borrowing : Borrowing) (book : Book)
    (hbr : findBorrowing s bId = some borrowing)
    (hopen : borrowing.returned_at = none)
    (hbk : findBook s borrowing.bookId = some book) :
    ∃ s' fineOpt,
      return_borrowing s bId now =
        .ok (s', { borrowing with returned_at := some now }, fineOpt) ∧
      s'.borrowings = (updateWhere (fun br => br.id == bId)
        (fun br => { br with returned_at := some now }) s.borrowings).1 ∧
      s'.books = (condIncrementAvailable s.books borrowing.bookId).1 := by
  rcases le_or_lt (now - borrowing.due_date) 0 with hle | hlt
  · exact ⟨_, _,
      return_borrowing_ok_notOverdue s bId now borrowing book hbr hopen hbk hle,
      rfl, rfl⟩
  · cases hf : s.fines.find? (fun f => f.borrowingId == bId) with
    | none =>
      exact ⟨_, _,
        return_borrowing_ok_overdue_new s bId now borrowing book
          hbr hopen hbk hlt hf, rfl, rfl⟩
    | some f =>
      exact ⟨_, _,
        return_borrowing_ok_overdue_existing s bId now borrowing book f
          hbr hopen hbk hlt hf, rfl, rfl⟩

/-- If a book has no open borrowing at all, no (member, book) pair has one. -/
lemma hasOpenBorrowing_of_countOpen_zero (s : LibraryState) (k m : Nat)
    (h : countOpenForBook s k = 0) :
    hasOpenBorrowing s.borrowings m k = false := by
  unfold countOpenForBook at h
  unfold hasOpenBorrowing
  rw [List.any_eq_false]
  intro br hbr
  have hnot := List.countP_eq_zero.mp h br hbr
  cases hmm : (br.memberId == m) <;> cases hbb : (br.bookId == k) <;>
    cases hrr : br.returned_at.isNone <;> simp_all

/-- A successful legacy `return_book` leaves the fines table unchanged: it
checks `is_overdue` only after `returned_at` has been set, and `is_overdue`
is `False` for a returned borrowing, so the fine-creation branch is dead. -/
lemma legacy_return_book_ok_fines (s : LibraryState) (bId : Nat)
    (now today : Int) (s' : LibraryState) (br' : Borrowing)
    (h : legacy_return_book s bId now today = .ok (s', br')) :
    s'.fines = s.fines := by
  unfold legacy_return_book at h
  split at h
  · exact Except.noConfusion h
  next borrowing heq =>
    split at h
    · exact Except.noConfusion h
    · simp only [is_overdue, Bool.false_eq_true, if_false, ite_false,
        Except.ok.injEq, Prod.mk.injEq] at h
      rw [← h.1]

/-- The legacy `return_book` never touches the fines table, on any input. -/
lemma legacy_return_fines_eq (s : LibraryState) (bId : Nat)
    (now today : Int) :
    (runLegacyReturnBook s bId now today).1.fines = s.fines := by
  unfold runLegacyReturnBook
  cases hc : legacy_return_book s bId now today with
  | error e => simp only [hc]
  | ok p =>
    simp only [hc]
    exact legacy_return_book_ok_fines s bId now today p.1 p.2 (by rw [hc])

/-- Success shape of the legacy `return_book`: the borrowing row gets
`returned_at := now`, the book row is incremented unconditionally, and no
fine is created. -/
lemma legacy_return_ok (s : LibraryState) (bId : Nat) (now today : Int)
    (borrowing : Borrowing)
    (hbr : findBorrowing s bId = some borrowing)
    (hopen : borrowing.returned_at = none) :
    legacy_return_book s bId now today =
      .ok ({ s with
              borrowings := (updateWhere (fun br => br.id == bId)
                (fun br => { br with returned_at := some now })
                s.borrowings).1,
              books := (updateWhere (fun b => b.id == borrowing.bookId)
                (fun b => { b with
                  available_copies := b.available_copies + 1 }) s.books).1 },
            { borrowing with returned_at := some now }) := by
  unfold legacy_return_book
  rw [hbr]
  simp only [hopen, Option.isSome_none, Bool.false_eq_true, if_false,
    ite_false, is_overdue]

/-- In a store with no reused borrowing ids, a freshly appended row is found
by its id. -/
lemma findBorrowing_append_fresh (s : LibraryState) (br : Borrowing)
    (hfresh : borrowIdsFresh s) (hid : br.id = s.nextId) :
    (s.borrowings ++ [br]).find? (fun b => b.id == br.id) = some br := by
  rw [List.find?_append]
  have h1 : s.borrowings.find? (fun b => b.id == br.id) = none := by
    rw [List.find?_eq_none]
    intro a ha
    have := hfresh a ha
    simp only [beq_iff_eq, hid]
    omega
  rw [h1]
  simp

end OpHelpers

/-! The claims. -/

/-- **C1** — For every book and every sequence of operations (CheckOut,
Return, restock), the invariant `0 ≤ available_copies ≤ total_copies` holds
in every reachable state: starting from any store whose books satisfy the
invariant, no operation sequence drives a book's `available_copies` below
zero or above `total_copies`. -/
theorem C1_availability_invariant (s : LibraryState) (ops : List Op)
    (h : ∀ b ∈ s.books, bookInv b) :
    ∀ b ∈ (ops.foldl applyOp s).books, bookInv b := by
  induction ops generalizing s with
  | nil => simpa using h
  | cons op rest ih =>
    simp only [List.foldl_cons]
    exact ih (applyOp s op) (applyOp_bookInv s op h)

/-- Witness for C1: a concrete store and operation sequence (checkout,
return, restock, second checkout), with the hypothesis decided. -/
theorem C1_availability_invariant_witness :
    (∀ b ∈ stBase.books, bookInv b) ∧
    (∀ b ∈ (([Op.checkOut 1 10 none none 0, Op.ret 100 25, Op.restock 10 2,
        Op.checkOut 2 10 none none 1]).foldl applyOp stBase).books,
      bookInv b) :=
  ⟨by decide, C1_availability_invariant stBase _ (by decide)⟩

/-- **C2** — The write phase of CheckOut (`checkoutCommit`, entered after
the precondition reads pass) decrements `available_copies` by 1 only if it
is still strictly positive at the moment of the write: if at the write no
row of this book has `available_copies > 0`, the conditional update affects
zero rows and the call fails with `ConcurrencyException` (not `BookNotFound`
or `BookNotAvailable`), creating no Borrowing; and whenever the commit
succeeds the book row was decremented by exactly 1 and exactly the one new
Borrowing row was inserted. -/
theorem C2_conditional_decrement (s : LibraryState) (m k : Nat)
    (due : Option Int) (notes : Option String) (today : Int) :
    ((∀ b ∈ s.books, b.id = k → b.available_copies ≤ 0) →
      checkoutCommit s m k due notes today = .error .concurrencyConflict) ∧
    (∀ book, findBook s k = some book → 0 < book.available_copies →
      ∀ s' br, checkoutCommit s m k due notes today = .ok (s', br) →
        findBook s' k =
          some { book with available_copies := book.available_copies - 1 } ∧
        s'.borrowings = s.borrowings ++ [br]) := by
  constructor
  · intro h
    have hcnt : (condDecrementAvailable s.books k).2 = 0 := by
      simp only [condDecrementAvailable, updateWhere_snd]
      refine List.countP_eq_zero.mpr fun b hb => ?_
      by_cases hid : (b.id == k) = true
      · have hle := h b hb (by simpa using hid)
        simp only [hid, Bool.true_and, decide_eq_true_eq]
        omega
      · simp [hid]
    unfold checkoutCommit
    simp [hcnt]
  · intro book hb hav s' br hok
    obtain ⟨hs, hbv⟩ := checkoutCommit_ok_inv s m k due notes today s' br hok
    subst hs hbv
    refine ⟨?_, rfl⟩
    show ((condDecrementAvailable s.books k).1.find? fun b => b.id == k) = _
    unfold condDecrementAvailable
    rw [find?_updateWhere_guard Book.id k
      (fun b => decide (0 < b.available_copies))
      (fun b => { b with available_copies := b.available_copies - 1 })
      (fun b => rfl) s.books]
    unfold findBook at hb
    rw [hb]
    simp [hav]

/-- Witness for C2: on a book with 0 available copies the commit phase
reports `ConcurrencyConflict`; on a book with 1 available copy the commit
decrements it to 0 and appends the one borrowing row. -/
theorem C2_conditional_decrement_witness :
    checkoutCommit stEmptyBook 1 10 none none 0 =
      .error .concurrencyConflict ∧
    (findBook (checkedOutState stBase 1 10 none none 0) 10 =
      some { id := 10, total_copies := 3, available_copies := 0 } ∧
    (checkedOutState stBase 1 10 none none 0).borrowings =
      stBase.borrowings ++ [newBorrowing stBase 1 10 none none 0]) :=
  ⟨(C2_conditional_decrement stEmptyBook 1 10 none none 0).1 (by decide),
   (C2_conditional_decrement stBase 1 10 none none 0).2
     { id := 10, total_copies := 3, available_copies := 1 } (by decide)
     (by decide) (checkedOutState stBase 1 10 none none 0)
     (newBorrowing stBase 1 10 none none 0) (by rfl)⟩

/-- **C3** — When the Borrowing insert violates the open-(member, book)
uniqueness constraint, CheckOut fails with `BookAlreadyBorrowedException`
and `transaction.atomic` rolls everything back: the runner's post-state is
exactly the pre-call state, even though the conditional decrement had
already affected a row (third conjunct: one row matched the decrement's
guard, so there was a write to undo). -/
theorem C3_duplicate_insert_rolls_back (s : LibraryState) (m k : Nat)
    (due : Option Int) (notes : Option String) (today : Int)
    (member : Member) (book : Book)
    (hm : findMember s m = some member)
    (ha : member.membership_status = MembershipStatus.active)
    (hb : findBook s k = some book)
    (hav : 0 < book.available_copies)
    (hdup : hasOpenBorrowing s.borrowings m k = true) :
    create_borrowing s m k due notes today = .error .bookAlreadyBorrowed ∧
    (runCreateBorrowing s m k due notes today).1 = s ∧
    (condDecrementAvailable s.books k).2 ≠ 0 := by
  have herr := create_borrowing_alreadyBorrowed s m k due notes today
    member book hm ha hb hav hdup
  refine ⟨herr, ?_, condDecrementAvailable_snd_ne_zero s.books k book hb hav⟩
  unfold runCreateBorrowing
  rw [herr]

/-- Witness for C3 at a store where member 1 already holds book 10 open. -/
theorem C3_duplicate_insert_rolls_back_witness :
    create_borrowing stDup 1 10 none none 0 = .error .bookAlreadyBorrowed ∧
    (runCreateBorrowing stDup 1 10 none none 0).1 = stDup ∧
    (condDecrementAvailable stDup.books 10).2 ≠ 0 :=
  C3_duplicate_insert_rolls_back stDup 1 10 none none 0
    { id := 1, membership_status := .active }
    { id := 10, total_copies := 3, available_copies := 1 }
    (by decide) (by decide) (by decide) (by decide) (by decide)

/-- **C4** — A successful Return stores the single `timezone.now()` value as
the return timestamp and uses the same value for the overdue computation
(the returned borrowing carries `returned_at = some now` while the overdue
test is on `now - due_date`); when `max(0, now - due_date) > 0` exactly one
Fine is created, with `amount = days_overdue * fine_rate_per_day` and a
reason string mentioning the number of days, unless a Fine for the borrowing
already exists, in which case the existing Fine is returned unchanged; when
not overdue no Fine is created and `none` is returned. -/
theorem C4_return_overdue_fine (s : LibraryState) (bId : Nat) (now : Int)
    (borrowing : Borrowing) (book : Book)
    (hbr : findBorrowing s bId = some borrowing)
    (hopen : borrowing.returned_at = none)
    (hbk : findBook s borrowing.bookId = some book) :
    ∃ s' fineOpt,
      return_borrowing s bId now =
        .ok (s', { borrowing with returned_at := some now }, fineOpt) ∧
      (now - borrowing.due_date ≤ 0 →
        fineOpt = none ∧ s'.fines = s.fines) ∧
      (0 < now - borrowing.due_date →
        (s.fines.find? (fun f => f.borrowingId == bId) = none →
          fineOpt = some (newReturnFine s bId (now - borrowing.due_date)) ∧
          s'.fines =
            s.fines ++ [newReturnFine s bId (now - borrowing.due_date)]) ∧
        (∀ f, s.fines.find? (fun fi => fi.borrowingId == bId) = some f →
          fineOpt = some f ∧ s'.fines = s.fines)) ∧
      (newReturnFine s bId (now - borrowing.due_date)).amountCents =
        (now - borrowing.due_date) * FINE_RATE_PER_DAY_CENTS ∧
      (∃ pre post, (newReturnFine s bId (now - borrowing.due_date)).reason =
        pre ++ toString (now - borrowing.due_date) ++ post) := by
  have hreason : ∃ pre post,
      (newReturnFine s bId (now - borrowing.due_date)).reason =
        pre ++ toString (now - borrowing.due_date) ++ post :=
    ⟨"Overdue by ",
     " day" ++ (if (now - borrowing.due_date) != 1 then "s" else ""), rfl⟩
  rcases le_or_lt (now - borrowing.due_date) 0 with hle | hlt
  · exact ⟨returnedState s bId borrowing.bookId now, none,
      return_borrowing_ok_notOverdue s bId now borrowing book hbr hopen hbk
        hle,
      fun _ => ⟨rfl, rfl⟩, fun hc => absurd hc (by omega), rfl, hreason⟩
  · cases hf : s.fines.find? (fun f => f.borrowingId == bId) with
    | none =>
      refine ⟨_, _,
        return_borrowing_ok_overdue_new s bId now borrowing book hbr hopen
          hbk hlt hf,
        fun hc => absurd hlt (by omega), fun _ => ⟨fun _ => ⟨rfl, rfl⟩,
          fun f hf2 => ?_⟩, rfl, hreason⟩
      exact Option.noConfusion hf2
    | some f0 =>
      refine ⟨_, _,
        return_borrowing_ok_overdue_existing s bId now borrowing book f0 hbr
          hopen hbk hlt hf,
        fun hc => absurd hlt (by omega), fun _ => ⟨fun hn => ?_,
          fun f hf2 => ?_⟩, rfl, hreason⟩
      · exact Option.noConfusion hn
      · have hff : f0 = f := Option.some.inj hf2
        subst hff
        exact ⟨rfl, rfl⟩

/-- Witness for C4: returning borrowing 50 of `stDup` five days late
(due day 20, returned day 25). -/
theorem C4_return_overdue_fine_witness :
    ∃ s' fineOpt,
      return_borrowing stDup 50 25 =
        .ok (s', { id := 50, memberId := 1, bookId := 10, due_date := 20,
                   returned_at := some 25, notes := none }, fineOpt) ∧
      ((25 : Int) - 20 ≤ 0 → fineOpt = none ∧ s'.fines = stDup.fines) ∧
      ((0 : Int) < 25 - 20 →
        (stDup.fines.find? (fun f => f.borrowingId == 50) = none →
          fineOpt = some (newReturnFine stDup 50 (25 - 20)) ∧
          s'.fines = stDup.fines ++ [newReturnFine stDup 50 (25 - 20)]) ∧
        (∀ f, stDup.fines.find? (fun fi => fi.borrowingId == 50) = some f →
          fineOpt = some f ∧ s'.fines = stDup.fines)) ∧
      (newReturnFine stDup 50 (25 - 20)).amountCents =
        (25 - 20) * FINE_RATE_PER_DAY_CENTS ∧
      (∃ pre post, (newReturnFine stDup 50 (25 - 20)).reason =
        pre ++ toString ((25 : Int) - 20) ++ post) :=
  C4_return_overdue_fine stDup 50 25
    { id := 50, memberId := 1, bookId := 10, due_date := 20,
      returned_at := none, notes := none }
    { id := 10, total_copies := 3, available_copies := 1 }
    (by decide) (by decide) (by decide)

/-- **C5**, counterexample — the claim says the legacy API return path
charges `days_overdue * $0.50` for an overdue return.  On a concrete return
that is 5 days overdue (due day 20, returned day 25) the legacy path
succeeds but charges nothing: its fine branch tests `is_overdue` only after
`returned_at` is set, so the fines table stays empty where the claim
requires a 250-cent fine. -/
theorem C5_counterexample :
    days_overdue_field { id := 50, memberId := 1, bookId := 10,
                         due_date := 20, returned_at := none,
                         notes := none } 25 = 5 ∧
    isOkResult (runLegacyReturnBook stDup 50 25 25).2 = true ∧
    (runLegacyReturnBook stDup 50 25 25).1.fines = [] := by decide

/-- **C5**, amended — For the same overdue return the transactional engine
charges `days_overdue * $1.00` while the legacy API path charges no fine at
all (its `$0.50`-per-day branch is unreachable); the two return
implementations are therefore not equivalent in the fine they produce. -/
theorem C5_fine_rate_discrepancy (s : LibraryState) (bId : Nat) (now : Int)
    (borrowing : Borrowing) (book : Book)
    (hbr : findBorrowing s bId = some borrowing)
    (hopen : borrowing.returned_at = none)
    (hbk : findBook s borrowing.bookId = some book)
    (hover : 0 < now - borrowing.due_date)
    (hnof : s.fines.find? (fun f => f.borrowingId == bId) = none) :
    (∃ s', return_borrowing s bId now =
      .ok (s', { borrowing with returned_at := some now },
           some (newReturnFine s bId (now - borrowing.due_date)))) ∧
    (newReturnFine s bId (now - borrowing.due_date)).amountCents =
      (now - borrowing.due_date) * 100 ∧
    (∃ s', legacy_return_book s bId now now =
      .ok (s', { borrowing with returned_at := some now }) ∧
      s'.fines = s.fines) := by
  refine ⟨⟨_, return_borrowing_ok_overdue_new s bId now borrowing book hbr
    hopen hbk hover hnof⟩, rfl, ⟨_, legacy_return_ok s bId now now borrowing
    hbr hopen, rfl⟩⟩

/-- Witness for C5 (amended) at the 5-days-overdue return of `stDup`. -/
theorem C5_fine_rate_discrepancy_witness :
    (∃ s', return_borrowing stDup 50 25 =
      .ok (s', { id := 50, memberId := 1, bookId := 10, due_date := 20,
                 returned_at := some 25, notes := none },
           some (newReturnFine stDup 50 (25 - 20)))) ∧
    (newReturnFine stDup 50 (25 - 20)).amountCents = (25 - 20) * 100 ∧
    (∃ s', legacy_return_book stDup 50 25 25 =
      .ok (s', { id := 50, memberId := 1, bookId := 10, due_date := 20,
                 returned_at := some 25, notes := none }) ∧
      s'.fines = stDup.fines) :=
  C5_fine_rate_discrepancy stDup 50 25
    { id := 50, memberId := 1, bookId := 10, due_date := 20,
      returned_at := none, notes := none }
    { id := 10, total_copies := 3, available_copies := 1 }
    (by decide) (by decide) (by decide) (by decide) (by decide)

/-- **C6** — The legacy API return path (`BorrowingViewSet.return_book`)
never creates a Fine, overdue or not: it sets `returned_at` and saves before
evaluating `is_overdue`, and `is_overdue` is `False` whenever `returned_at`
is set, so the fine-creation branch is unreachable and the fines table is
unchanged on every input. -/
theorem C6_legacy_return_never_fines (s : LibraryState) (bId : Nat)
    (now today : Int) :
    (runLegacyReturnBook s bId now today).1.fines = s.fines :=
  legacy_return_fines_eq s bId now today

/-- **C7**, counterexample — the claim says every exposed operation outside
the engine leaves `available_copies` and `returned_at` unchanged.  Concretely
the legacy `BorrowingViewSet.create` changes the book table (decrementing
`available_copies` with an unconditional read-modify-write), and the legacy
`return_book` sets `returned_at` on the borrowing row. -/
theorem C7_counterexample :
    (runLegacyCreateBorrowing stBase 1 10 none none 0).1.books ≠
      stBase.books ∧
    ((runLegacyReturnBook stDup 50 25 25).1.borrowings.find?
        (fun br => br.id == 50)) =
      some { id := 50, memberId := 1, bookId := 10, due_date := 20,
             returned_at := some 25, notes := none } := by decide

/-- **C7**, amended — Within the Borrowing Engine, `available_copies` is
written only through the guarded conditional updates (the decrement guarded
by `available_copies > 0` and the increment guarded by
`available_copies < total_copies`, each a no-op reporting zero affected rows
when its guard fails); but the legacy viewset paths outside the engine also
mutate the shared fields via unconditional read-modify-write: a successful
legacy `return_book` always sets `returned_at` and always increments
`available_copies`, with no guard against exceeding `total_copies`. -/
theorem C7_guarded_write_policy (books : List Book) (k : Nat)
    (s : LibraryState) (bId : Nat) (now today : Int)
    (borrowing : Borrowing) (book : Book) :
    ((∀ b ∈ books, b.id = k → b.available_copies ≤ 0) →
      condDecrementAvailable books k = (books, 0)) ∧
    ((∀ b ∈ books, b.id = k → b.total_copies ≤ b.available_copies) →
      condIncrementAvailable books k = (books, 0)) ∧
    (findBorrowing s bId = some borrowing → borrowing.returned_at = none →
      findBook s borrowing.bookId = some book →
      ∀ s' br', legacy_return_book s bId now today = .ok (s', br') →
        br'.returned_at = some now ∧
        findBook s' borrowing.bookId =
          some { book with
                 available_copies := book.available_copies + 1 }) := by
  refine ⟨?_, ?_, ?_⟩
  · intro h
    unfold condDecrementAvailable
    refine updateWhere_nop _ _ books fun b hbmem => ?_
    by_cases hid : (b.id == k) = true
    · have := h b hbmem (by simpa using hid)
      simp only [hid, Bool.true_and, decide_eq_false_iff_not]
      omega
    · simp [hid]
  · intro h
    unfold condIncrementAvailable
    refine updateWhere_nop _ _ books fun b hbmem => ?_
    by_cases hid : (b.id == k) = true
    · have := h b hbmem (by simpa using hid)
      simp only [hid, Bool.true_and, decide_eq_false_iff_not]
      omega
    · simp [hid]
  · intro hbr hopen hbk s' br' hok
    rw [legacy_return_ok s bId now today borrowing hbr hopen] at hok
    simp only [Except.ok.injEq, Prod.mk.injEq] at hok
    obtain ⟨h1, h2⟩ := hok
    constructor
    · rw [← h2]
    · rw [← h1]
      unfold findBook
      rw [find?_updateWhere_key Book.id borrowing.bookId
        (fun b => { b with available_copies := b.available_copies + 1 })
        (fun b => rfl) s.books]
      unfold findBook at hbk
      rw [hbk]
      rfl

/-- Witness for C7 (amended): the decrement guard refuses on an exhausted
book, the increment guard refuses on a full book, and the legacy return on
`stDup` unconditionally writes both shared fields. -/
theorem C7_guarded_write_policy_witness :
    condDecrementAvailable stEmptyBook.books 10 = (stEmptyBook.books, 0) ∧
    condIncrementAvailable
        [{ id := 10, total_copies := 3, available_copies := 3 }] 10 =
      ([{ id := 10, total_copies := 3, available_copies := 3 }], 0) ∧
    ((runLegacyReturnBook stDup 50 25 25).2 =
        .ok { id := 50, memberId := 1, bookId := 10, due_date := 20,
              returned_at := some 25, notes := none } →
      True) ∧
    findBook (runLegacyReturnBook stDup 50 25 25).1 10 =
      some { id := 10, total_copies := 3, available_copies := 2 } := by
  refine ⟨(C7_guarded_write_policy stEmptyBook.books 10 stDup 50 25 25
      { id := 50, memberId := 1, bookId := 10, due_date := 20,
        returned_at := none, notes := none }
      { id := 10, total_copies := 3, available_copies := 1 }).1 (by decide),
    (C7_guarded_write_policy
      [{ id := 10, total_copies := 3, available_copies := 3 }] 10 stDup 50
      25 25
      { id := 50, memberId := 1, bookId := 10, due_date := 20,
        returned_at := none, notes := none }
      { id := 10, total_copies := 3, available_copies := 1 }).2.1 (by decide),
    fun _ => trivial, ?_⟩
  have h3 := (C7_guarded_write_policy stEmptyBook.books 10 stDup 50 25 25
    { id := 50, memberId := 1, bookId := 10, due_date := 20,
      returned_at := none, notes := none }
    { id := 10, total_copies := 3, available_copies := 1 }).2.2
    (by decide) (by decide) (by decide)
  exact (h3 _ _ (by rfl)).2

/-- **C8** — Calling Return twice on the same borrowing: the first call
succeeds and sets the return timestamp, the second call raises
`BorrowingAlreadyReturnedException` and (by the rollback runner) changes no
state, and across both calls `available_copies` is incremented exactly once:
the state after both calls holds the book at its original count plus 1. -/
theorem C8_double_return (s : LibraryState) (bId : Nat) (now1 now2 : Int)
    (borrowing : Borrowing) (book : Book)
    (hbr : findBorrowing s bId = some borrowing)
    (hopen : borrowing.returned_at = none)
    (hbk : findBook s borrowing.bookId = some book)
    (hlt : book.available_copies < book.total_copies) :
    ∃ s' fineOpt,
      return_borrowing s bId now1 =
        .ok (s', { borrowing with returned_at := some now1 }, fineOpt) ∧
      return_borrowing s' bId now2 = .error .borrowingAlreadyReturned ∧
      (runReturnBorrowing s' bId now2).1 = s' ∧
      findBook s' borrowing.bookId =
        some { book with
               available_copies := book.available_copies + 1 } := by
  obtain ⟨s', fineOpt, hok, hbrs, hbooks⟩ :=
    return_borrowing_ok_core s bId now1 borrowing book hbr hopen hbk
  have hfind : findBorrowing s' bId =
      some { borrowing with returned_at := some now1 } := by
    unfold findBorrowing
    rw [hbrs]
    rw [find?_updateWhere_key Borrowing.id bId
      (fun br => { br with returned_at := some now1 }) (fun br => rfl)
      s.borrowings]
    unfold findBorrowing at hbr
    rw [hbr]
    rfl
  have herr := return_borrowing_already s' bId now2 _ hfind rfl
  refine ⟨s', fineOpt, hok, herr, ?_, ?_⟩
  · unfold runReturnBorrowing
    rw [herr]
  · unfold findBook
    rw [hbooks]
    unfold condIncrementAvailable
    rw [find?_updateWhere_guard Book.id borrowing.bookId
      (fun b => decide (b.available_copies < b.total_copies))
      (fun b => { b with available_copies := b.available_copies + 1 })
      (fun b => rfl) s.books]
    unfold findBook at hbk
    rw [hbk]
    simp [hlt]

/-- Witness for C8: returning borrowing 50 of `stDup` at day 25, then again
at day 30. -/
theorem C8_double_return_witness :
    ∃ s' fineOpt,
      return_borrowing stDup 50 25 =
        .ok (s', { id := 50, memberId := 1, bookId := 10, due_date := 20,
                   returned_at := some 25, notes := none }, fineOpt) ∧
      return_borrowing s' 50 30 = .error .borrowingAlreadyReturned ∧
      (runReturnBorrowing s' 50 30).1 = s' ∧
      findBook s' 10 =
        some { id := 10, total_copies := 3, available_copies := 2 } :=
  C8_double_return stDup 50 25 30
    { id := 50, memberId := 1, bookId := 10, due_date := 20,
      returned_at := none, notes := none }
    { id := 10, total_copies := 3, available_copies := 1 }
    (by decide) (by decide) (by decide) (by decide)

/-- **C9** — Whenever CheckOut succeeds, immediately returning the created
borrowing restores the book to exactly its pre-checkout record: the
increment's guard `available_copies < total_copies` necessarily holds after
the decrement (given the invariant `available ≤ total`), so the increment
always fires and cancels the decrement. -/
theorem C9_checkout_return_roundtrip (s : LibraryState) (m k : Nat)
    (due : Option Int) (notes : Option String) (today now : Int)
    (book : Book) (s1 : LibraryState) (br : Borrowing)
    (hb : findBook s k = some book)
    (hinv : book.available_copies ≤ book.total_copies)
    (hfresh : borrowIdsFresh s)
    (hok : create_borrowing s m k due notes today = .ok (s1, br)) :
    ∃ s2 fineOpt,
      return_borrowing s1 br.id now =
        .ok (s2, { br with returned_at := some now }, fineOpt) ∧
      findBook s2 k = some book := by
  obtain ⟨hs1, hbrv⟩ := create_borrowing_ok_inv s m k due notes today s1 br
    hok
  obtain ⟨book0, hb0, hav0, -⟩ := create_borrowing_ok_pre s m k due notes
    today s1 br hok
  rw [hb] at hb0
  have hbb : book = book0 := Option.some.inj hb0
  rw [← hbb] at hav0
  subst hs1 hbrv
  have hfind : findBorrowing (checkedOutState s m k due notes today)
      (newBorrowing s m k due notes today).id =
      some (newBorrowing s m k due notes today) :=
    findBorrowing_append_fresh s (newBorrowing s m k due notes today)
      hfresh rfl
  have hbk1 : ((condDecrementAvailable s.books k).1.find?
      fun b => b.id == k) =
      some { book with available_copies := book.available_copies - 1 } := by
    unfold condDecrementAvailable
    rw [find?_updateWhere_guard Book.id k
      (fun b => decide (0 < b.available_copies))
      (fun b => { b with available_copies := b.available_copies - 1 })
      (fun b => rfl) s.books]
    unfold findBook at hb
    rw [hb]
    simp [hav0]
  obtain ⟨s2, fineOpt, hret, -, hbooks2⟩ := return_borrowing_ok_core
    (checkedOutState s m k due notes today)
    (newBorrowing s m k due notes today).id now
    (newBorrowing s m k due notes today)
    { book with available_copies := book.available_copies - 1 }
    hfind rfl hbk1
  refine ⟨s2, fineOpt, hret, ?_⟩
  unfold findBook
  rw [hbooks2]
  show ((condIncrementAvailable (condDecrementAvailable s.books k).1 k).1.find?
      fun b => b.id == k) = some book
  unfold condIncrementAvailable
  rw [find?_updateWhere_guard Book.id k
    (fun b => decide (b.available_copies < b.total_copies))
    (fun b => { b with available_copies := b.available_copies + 1 })
    (fun b => rfl) (condDecrementAvailable s.books k).1]
  rw [hbk1]
  have hg : book.available_copies - 1 < book.total_copies := by omega
  have hrec : ({ book with
      available_copies := book.available_copies - 1 + 1 } : Book) =
      book := by
    cases book
    simp only [Book.mk.injEq, and_true, true_and]
    omega
  simp only [Option.map_some']
  rw [if_pos (by simpa using hg)]
  rw [show ({ book with available_copies := book.available_copies - 1 } :
    Book).available_copies + 1 = book.available_copies - 1 + 1 from rfl]
  rw [hrec]

/-- Witness for C9: check out book 10 from `stBase` and return it at day 5;
the book row is restored to `⟨10, 3, 1⟩`. -/
theorem C9_checkout_return_roundtrip_witness :
    ∃ s2 fineOpt,
      return_borrowing (checkedOutState stBase 1 10 none none 0)
        (newBorrowing stBase 1 10 none none 0).id 5 =
        .ok (s2, { newBorrowing stBase 1 10 none none 0 with
                   returned_at := some 5 }, fineOpt) ∧
      findBook s2 10 =
        some { id := 10, total_copies := 3, available_copies := 1 } :=
  C9_checkout_return_roundtrip stBase 1 10 none none 0 5
    { id := 10, total_copies := 3, available_copies := 1 }
    (checkedOutState stBase 1 10 none none 0)
    (newBorrowing stBase 1 10 none none 0)
    (by decide) (by decide) (by decide) (by rfl)

/-- Serialized contention tail: once the book is exhausted, every further
checkout attempt by an existing active member fails with
`BookNotAvailableException` and changes nothing. -/
lemma runCheckouts_noAvail (t : LibraryState) (k : Nat) (today : Int)
    (reqs : List Nat) (book : Book)
    (hb : findBook t k = some book) (h0 : book.available_copies ≤ 0)
    (hmem : ∀ m ∈ reqs, ∃ mem, findMember t m = some mem ∧
      mem.membership_status = MembershipStatus.active) :
    runCheckouts t k reqs today =
      (t, reqs.map fun _ => .error .bookNotAvailable) := by
  induction reqs with
  | nil => rfl
  | cons m rest ih =>
    obtain ⟨mem, hm, hact⟩ := hmem m (List.mem_cons_self m rest)
    have herr := create_borrowing_notAvailable t m k none none today mem
      book hm hact hb h0
    simp only [runCheckouts, runCreateBorrowing, herr]
    rw [ih fun m2 hm2 => hmem m2 (List.mem_cons_of_mem _ hm2)]
    simp

/-- A list of failed attempts contains no success. -/
lemma countP_isOk_errors (l : List Nat) :
    (l.map fun _ =>
      (Except.error BorrowError.bookNotAvailable :
        Except BorrowError Borrowing)).countP isOkResult = 0 := by
  induction l with
  | nil => rfl
  | cons a l ih => simp [isOkResult, ih]

/-- **C10** — N ≥ 1 checkout attempts against one book with exactly 1
available copy, serialized by the row lock: exactly 1 attempt succeeds, every
other fails with `BookNotAvailable` or `ConcurrencyConflict`, the final
`available_copies` is 0, and exactly one open Borrowing of the book exists. -/
theorem C10_single_copy_contention (s : LibraryState) (k : Nat)
    (reqs : List Nat) (today : Int) (book : Book)
    (hne : reqs ≠ [])
    (hb : findBook s k = some book)
    (hav : book.available_copies = 1)
    (hmem : ∀ m ∈ reqs, ∃ mem, findMember s m = some mem ∧
      mem.membership_status = MembershipStatus.active)
    (hopen : countOpenForBook s k = 0) :
    (runCheckouts s k reqs today).2.countP isOkResult = 1 ∧
    (∀ e, Except.error e ∈ (runCheckouts s k reqs today).2 →
      e = BorrowError.bookNotAvailable ∨
      e = BorrowError.concurrencyConflict) ∧
    findBook (runCheckouts s k reqs today).1 k =
      some { book with available_copies := 0 } ∧
    countOpenForBook (runCheckouts s k reqs today).1 k = 1 := by
  cases reqs with
  | nil => exact absurd rfl hne
  | cons m0 rest =>
    obtain ⟨mem0, hm0, hact0⟩ := hmem m0 (List.mem_cons_self _ _)
    have hdup0 := hasOpenBorrowing_of_countOpen_zero s k m0 hopen
    have hok := create_borrowing_ok s m0 k none none today mem0 book hm0
      hact0 hb (by omega) hdup0
    have hbk1 : findBook (checkedOutState s m0 k none none today) k =
        some { book with available_copies := 0 } := by
      show ((condDecrementAvailable s.books k).1.find? fun b => b.id == k) = _
      unfold condDecrementAvailable
      rw [find?_updateWhere_guard Book.id k
        (fun b => decide (0 < b.available_copies))
        (fun b => { b with available_copies := b.available_copies - 1 })
        (fun b => rfl) s.books]
      unfold findBook at hb
      rw [hb]
      simp [hav]
    have htail := runCheckouts_noAvail
      (checkedOutState s m0 k none none today) k today rest
      { book with available_copies := 0 } hbk1 (by simp)
      (fun m2 hm2 => hmem m2 (List.mem_cons_of_mem _ hm2))
    have hrun : runCheckouts s k (m0 :: rest) today =
        ((checkedOutState s m0 k none none today),
         .ok (newBorrowing s m0 k none none today) ::
           (rest.map fun _ => .error .bookNotAvailable)) := by
      simp only [runCheckouts, runCreateBorrowing, hok, htail]
    rw [hrun]
    have hcount : countOpenForBook (checkedOutState s m0 k none none today)
        k = 1 := by
      unfold countOpenForBook at hopen ⊢
      show ((s.borrowings ++
        [newBorrowing s m0 k none none today]).countP _) = 1
      rw [List.countP_append]
      rw [hopen]
      simp [newBorrowing]
    refine ⟨?_, ?_, hbk1, hcount⟩
    · simp [List.countP_cons, countP_isOk_errors, isOkResult]
    · intro e he
      simp only [List.mem_cons, List.mem_map] at he
      rcases he with he | ⟨m2, -, he⟩
      · exact Except.noConfusion he
      · left
        exact (Except.error.inj he).symm

/-- Witness for C10: two members race for the single available copy of book
10 in `stBase`; the first wins, the second gets `BookNotAvailable`. -/
theorem C10_single_copy_contention_witness :
    (runCheckouts stBase 10 [1, 2] 0).2.countP isOkResult = 1 ∧
    (∀ e, Except.error e ∈ (runCheckouts stBase 10 [1, 2] 0).2 →
      e = BorrowError.bookNotAvailable ∨
      e = BorrowError.concurrencyConflict) ∧
    findBook (runCheckouts stBase 10 [1, 2] 0).1 10 =
      some { id := 10, total_copies := 3, available_copies := 0 } ∧
    countOpenForBook (runCheckouts stBase 10 [1, 2] 0).1 10 = 1 :=
  C10_single_copy_contention stBase 10 [1, 2] 0
    { id := 10, total_copies := 3, available_copies := 1 }
    (by decide) (by decide) (by decide) (by decide) (by decide)

end LibraryPlatform
